import Mathlib

/-!
Verification of the text-analyzer backend core, modelled from the JavaScript
source: the word-ranking post-processing inside `TextProcessor.inputIAData`,
the single-row last-analysis store (`saveLastAnalysis` issuing
`DELETE FROM last_analysis` then `INSERT INTO last_analysis (text) VALUES (?)`
against a table with an autoincrement primary key), the case-sensitive term
search (`searchTerm`, using `String.prototype.includes` on the row returned by
`SELECT text FROM last_analysis ORDER BY id DESC LIMIT 1`), and the two
Express route handlers from `routes.js`.

Modelling notes.
JavaScript `Array.prototype.sort` is required to be stable; for a consistent
comparator `cmp` its output is the unique permutation of the input that is
sorted with respect to `le a b := cmp a b ≤ 0` and preserves the input order
of elements comparing equal.  `List.insertionSort` is exactly such a stable
sort, so it is used as the model of the in-place `.sort(sortByCountAndAlpha)`
calls.  `String.prototype.localeCompare` is locale-dependent and is kept
abstract as a comparator parameter `lc`; the theorems assume only that `lc`
is swap-consistent and transitive, which every locale collation satisfies.
-/

/-- Model of one word-statistics entry `{ word, count, isStopWord }` produced
by the upstream model call and consumed by the ranking step. -/
structure WordStat where
  word : String
  count : Nat
  isStopWord : Bool
deriving Repr, DecidableEq

/-- Model of the comparator `sortByCountAndAlpha` from `TextProcessor`:
`if (b.count !== a.count) return b.count - a.count; return
a.word.localeCompare(b.word);`.  A negative JavaScript return value is
`Ordering.lt` (a sorts before b), positive is `Ordering.gt`, zero is
`Ordering.eq`; `lc` stands for `localeCompare`. -/
def sortByCountAndAlpha (lc : String → String → Ordering) (a b : WordStat) : Ordering :=
  if b.count ≠ a.count then compare b.count a.count
  else lc a.word b.word

/-- Relation `a` sorts no later than `b` under `sortByCountAndAlpha`:
the comparator does not return a positive value on `(a, b)`. -/
def wsLe (lc : String → String → Ordering) (a b : WordStat) : Prop :=
  sortByCountAndAlpha lc a b ≠ Ordering.gt

instance wsLeDec (lc : String → String → Ordering) : DecidableRel (wsLe lc) := fun a b =>
  if h : sortByCountAndAlpha lc a b = Ordering.gt then isFalse (fun hn => hn h) else isTrue h

/-- Model of the ranking fragment of the analysis output: the four fields of
`this.output` computed by pure post-processing (the `idiom` and `sentiment`
fields are passed through from the model call and carried separately). -/
structure RankResult where
  total_words : Nat
  top_5_words : List WordStat
  non_stopwords : List WordStat
  stopwords : List WordStat
deriving Repr, DecidableEq

/-- Model of the data-processing pipeline inside `inputIAData` applied to
`aiResult.words`: `total_words` by `reduce`, the two `filter` calls, the two
stable in-place sorts with `sortByCountAndAlpha`, and `slice(0, 5)`. -/
def rank (lc : String → String → Ordering) (words : List WordStat) : RankResult :=
  let total_words := words.foldl (fun sum w => sum + w.count) 0
  let nonStopWords := words.filter fun w => !w.isStopWord
  let stopWords := words.filter fun w => w.isStopWord
  let sortedNonStop := nonStopWords.insertionSort (wsLe lc)
  let sortedStop := stopWords.insertionSort (wsLe lc)
  { total_words := total_words
    top_5_words := sortedNonStop.take 5
    non_stopwords := sortedNonStop
    stopwords := sortedStop }

/-- Model of one row of the `last_analysis` table: `(id, text)`; the
`created_at` column defaults to the current timestamp and is never read. -/
structure StoreRow where
  id : Nat
  text : String
deriving Repr, DecidableEq

/-- Model of the SQLite `last_analysis` table plus its autoincrement
counter. -/
structure Store where
  rows : List StoreRow
  nextId : Nat
deriving Repr, DecidableEq

/-- Model of `DELETE FROM last_analysis`. -/
def deleteAll (s : Store) : Store :=
  { s with rows := [] }

/-- Model of `INSERT INTO last_analysis (text) VALUES (?)` with the
autoincrement primary key. -/
def insertText (s : Store) (text : String) : Store :=
  { rows := s.rows ++ [⟨s.nextId, text⟩], nextId := s.nextId + 1 }

/-- Model of `saveLastAnalysis`: unconditional delete of every row followed
by insertion of the new text. -/
def saveLastAnalysis (s : Store) (text : String) : Store :=
  insertText (deleteAll s) text

/-- Model of `SELECT text FROM last_analysis ORDER BY id DESC LIMIT 1`:
the text of the row with the greatest id, if any row exists. -/
def lastAnalysisText (s : Store) : Option String :=
  (s.rows.foldl
    (fun acc r =>
      match acc with
      | none => some r
      | some m => if m.id < r.id then some r else some m)
    none).map (fun r => r.text)

/-- Helper for the model of `String.prototype.includes`: scan every suffix of
the haystack for the needle as a prefix. -/
def containsSub (needle : List Char) : List Char → Bool
  | [] => needle.isEmpty
  | c :: rest => needle.isPrefixOf (c :: rest) || containsSub needle rest

/-- Model of `hay.includes(needle)`: case-sensitive exact substring
containment, no normalization. -/
def jsIncludes (hay needle : String) : Bool :=
  containsSub needle.data hay.data

/-- Model of the body of `searchTerm` applied to the outcome of the database
read: a thrown error is caught and yields `false`; an absent row yields
`false`; otherwise `lastAnalysis.text.includes(term)`. -/
def searchTermResult (read : Except String (Option String)) (term : String) : Bool :=
  match read with
  | .error _ => false
  | .ok none => false
  | .ok (some text) => jsIncludes text term

/-- Model of `searchTerm` against a store whose read succeeds. -/
def searchTerm (s : Store) (term : String) : Bool :=
  searchTermResult (.ok (lastAnalysisText s)) term

/-- Minimal JSON value model for the route response bodies. -/
inductive JVal where
  | str : String → JVal
  | bool : Bool → JVal
deriving Repr, DecidableEq

/-- A JSON object modelled as an ordered list of key-value pairs, the order
in which the object literal lists them. -/
abbrev JObj := List (String × JVal)

/-- Model of the `GET /api/search-term` handler from `routes.js`: a missing
or empty `term` (falsy in JavaScript) yields status 400 with
`{ error: 'Term is required' }`; otherwise status 200 with
`{ term, termFoundedInLastAnalysis }`. -/
def searchTermRoute (s : Store) (term : Option String) : Nat × JObj :=
  match term with
  | none => (400, [("error", .str "Term is required")])
  | some t =>
    if t = "" then (400, [("error", .str "Term is required")])
    else (200, [("term", .str t), ("termFoundedInLastAnalysis", .bool (searchTerm s t))])

/-- Model of the parsed JSON the model call returns on success:
`{ idiom, sentiment, words }`. -/
structure AiRaw where
  idiom : String
  sentiment : String
  words : List WordStat
deriving Repr, DecidableEq

/-- Model of `this.output` after `inputIAData`: either the full summary or
the caught-error object `{ error: 'Error retrieving analysis from AI' }`. -/
inductive AnalysisOutput where
  | summary : String → String → RankResult → AnalysisOutput
  | failure : String → AnalysisOutput
deriving Repr, DecidableEq

/-- Model of `inputIAData` as a function of the model-call outcome: on
success the ranking pipeline runs; any thrown error is caught and replaced
by the error object. -/
def inputIAData (lc : String → String → Ordering) (ai : Except String AiRaw) : AnalysisOutput :=
  match ai with
  | .error _ => .failure "Error retrieving analysis from AI"
  | .ok a => .summary a.idiom a.sentiment (rank lc a.words)

/-- Helper for the model of `String.prototype.trim`: drop leading whitespace
characters. -/
def trimLeftChars : List Char → List Char
  | [] => []
  | c :: cs => if c.isWhitespace then trimLeftChars cs else c :: cs

/-- Model of `text.trim()`: whitespace stripped from both ends. -/
def jsTrim (s : String) : String :=
  ⟨((trimLeftChars s.data).reverse |> trimLeftChars).reverse⟩

/-- Model of the `POST /api/analyze-text` response: 400 on blank input,
otherwise the analysis output (summary or error object) as JSON. -/
inductive AnalyzeResponse where
  | badRequest : String → AnalyzeResponse
  | ok : AnalysisOutput → AnalyzeResponse
deriving Repr, DecidableEq

/-- Model of the `POST /api/analyze-text` handler from `routes.js`:
`if (!text || text.trim() === '')` rejects with 400 and leaves the store
untouched; otherwise `inputIAData(text)` runs, `saveLastAnalysis(text)` is
awaited unconditionally afterwards, and `outputData()` is returned. -/
def analyzeTextRoute (lc : String → String → Ordering) (s : Store) (text : String)
    (ai : Except String AiRaw) : AnalyzeResponse × Store :=
  if text = "" ∨ jsTrim text = "" then (.badRequest "Text is required.", s)
  else (.ok (inputIAData lc ai), saveLastAnalysis s text)

/-- Trivial locale comparator (every pair ties), used to instantiate the
comparator-parametric theorems at concrete inputs. -/
def lcEq : String → String → Ordering := fun _ _ => Ordering.eq

/-- Sample input bag from the specification:
`[{the,5,true},{cat,3,false},{dog,3,false}]`. -/
def wsSample : List WordStat :=
  [⟨"the", 5, true⟩, ⟨"cat", 3, false⟩, ⟨"dog", 3, false⟩]

/-- Sample input with only two non-stopwords:
`[{a,1,false},{b,1,false}]`. -/
def wsPair : List WordStat :=
  [⟨"a", 1, false⟩, ⟨"b", 1, false⟩]

/-- A store that has never been written. -/
def emptyStore : Store := ⟨[], 0⟩

/-- A store holding the single analyzed text "Hello World". -/
def storeHello : Store := ⟨[⟨0, "Hello World"⟩], 1⟩

/-! ## Comparator lemmas -/

/-- Characterization of `wsLe`: count strictly descending, ties resolved by
the locale comparator not answering greater. -/
theorem wsLe_iff (lc : String → String → Ordering) (a b : WordStat) :
    wsLe lc a b ↔ b.count < a.count ∨ (b.count = a.count ∧ lc a.word b.word ≠ Ordering.gt) := by
  unfold wsLe sortByCountAndAlpha
  by_cases h : b.count = a.count
  · simp [h]
  · simp [h, Nat.compare_eq_gt]
    omega

/-- A swap-consistent comparator answers `eq` on identical arguments. -/
theorem lc_self_eq (lc : String → String → Ordering)
    (hsw : ∀ a b, lc b a = (lc a b).swap) (w : String) : lc w w = Ordering.eq := by
  have h := hsw w w
  cases hlc : lc w w with
  | lt => rw [hlc] at h; exact absurd h (by decide)
  | eq => rfl
  | gt => rw [hlc] at h; exact absurd h (by decide)

/-- Totality of `wsLe` for a swap-consistent locale comparator. -/
theorem wsLe_total (lc : String → String → Ordering)
    (hsw : ∀ a b, lc b a = (lc a b).swap) (a b : WordStat) :
    wsLe lc a b ∨ wsLe lc b a := by
  rw [wsLe_iff, wsLe_iff]
  rcases Nat.lt_trichotomy a.count b.count with h | h | h
  · exact Or.inr (Or.inl h)
  · by_cases hg : lc a.word b.word = Ordering.gt
    · refine Or.inr (Or.inr ⟨h, ?_⟩)
      rw [hsw a.word b.word, hg]
      decide
    · exact Or.inl (Or.inr ⟨h.symm, hg⟩)
  · exact Or.inl (Or.inl h)

/-- Transitivity of `wsLe` for a transitive locale comparator. -/
theorem wsLe_trans (lc : String → String → Ordering)
    (htr : ∀ a b c, lc a b ≠ Ordering.gt → lc b c ≠ Ordering.gt → lc a c ≠ Ordering.gt)
    (a b c : WordStat) (hab : wsLe lc a b) (hbc : wsLe lc b c) : wsLe lc a c := by
  rw [wsLe_iff] at hab hbc ⊢
  rcases hab with h1 | ⟨h1, h1'⟩ <;> rcases hbc with h2 | ⟨h2, h2'⟩
  · exact Or.inl (h2.trans h1)
  · exact Or.inl (h2 ▸ h1)
  · exact Or.inl (h1 ▸ h2)
  · exact Or.inr ⟨h2.trans h1, htr a.word b.word c.word h1' h2'⟩

/-! ## Stability of the stable sort on tie classes -/

/-- Filtering the stably sorted list by any fixed (count, word) key gives the
same list as filtering the input: elements with identical keys keep their
input relative order. -/
theorem filter_insertionSort_ties (lc : String → String → Ordering)
    (hsw : ∀ a b, lc b a = (lc a b).swap) (l : List WordStat) (c : Nat) (w : String) :
    (l.insertionSort (wsLe lc)).filter (fun x => x.count == c && x.word == w)
      = l.filter (fun x => x.count == c && x.word == w) := by
  set p : WordStat → Bool := fun x => x.count == c && x.word == w with hp
  have hkey : ∀ x y : WordStat, p x = true → p y = true → wsLe lc x y := by
    intro x y hx hy
    simp only [hp, Bool.and_eq_true, beq_iff_eq] at hx hy
    rw [wsLe_iff]
    refine Or.inr ⟨hy.1.trans hx.1.symm, ?_⟩
    rw [hx.2, hy.2, lc_self_eq lc hsw w]
    decide
  have hpl : (l.filter p).Pairwise (wsLe lc) :=
    List.pairwise_of_forall_mem_list fun a ha b hb =>
      hkey a b (List.of_mem_filter ha) (List.of_mem_filter hb)
  have hsub : List.Sublist (l.filter p) (l.insertionSort (wsLe lc)) :=
    List.sublist_insertionSort hpl (List.filter_sublist l)
  have hid : (l.filter p).filter p = l.filter p :=
    List.filter_eq_self.mpr fun a ha => List.of_mem_filter ha
  have hsub2 : List.Sublist (l.filter p) ((l.insertionSort (wsLe lc)).filter p) := by
    have h := hsub.filter p
    rwa [hid] at h
  have hperm : ((l.insertionSort (wsLe lc)).filter p).Perm (l.filter p) :=
    (List.perm_insertionSort (wsLe lc) l).filter p
  exact (hsub2.eq_of_length hperm.length_eq.symm).symm

/-- C1: for every input sequence of WordStat and every swap-consistent,
transitive locale comparator, `rank` sorts `non_stopwords` and `stopwords`
independently: each partition of the result is a permutation of the matching
partition of the input, ordered by count descending with ties broken by the
locale comparison of `word` ascending, and entries with identical
(count, word) pairs keep their input relative order (stable sort), which
together with `rank` being a function makes the result deterministic. -/
theorem rank_sorts_each_partition_stably (lc : String → String → Ordering)
    (hsw : ∀ a b, lc b a = (lc a b).swap)
    (htr : ∀ a b c, lc a b ≠ Ordering.gt → lc b c ≠ Ordering.gt → lc a c ≠ Ordering.gt)
    (ws : List WordStat) :
    (rank lc ws).non_stopwords.Perm (ws.filter fun x => !x.isStopWord)
    ∧ (rank lc ws).stopwords.Perm (ws.filter fun x => x.isStopWord)
    ∧ (rank lc ws).non_stopwords.Pairwise
        (fun a b => b.count < a.count ∨ (b.count = a.count ∧ lc a.word b.word ≠ Ordering.gt))
    ∧ (rank lc ws).stopwords.Pairwise
        (fun a b => b.count < a.count ∨ (b.count = a.count ∧ lc a.word b.word ≠ Ordering.gt))
    ∧ (∀ c w, (rank lc ws).non_stopwords.filter (fun x => x.count == c && x.word == w)
        = (ws.filter fun x => !x.isStopWord).filter (fun x => x.count == c && x.word == w))
    ∧ (∀ c w, (rank lc ws).stopwords.filter (fun x => x.count == c && x.word == w)
        = (ws.filter fun x => x.isStopWord).filter (fun x => x.count == c && x.word == w)) := by
  haveI : IsTotal WordStat (wsLe lc) := ⟨wsLe_total lc hsw⟩
  haveI : IsTrans WordStat (wsLe lc) := ⟨wsLe_trans lc htr⟩
  refine ⟨?_, ?_, ?_, ?_, ?_, ?_⟩
  · exact List.perm_insertionSort _ _
  · exact List.perm_insertionSort _ _
  · exact (List.sorted_insertionSort (wsLe lc) _).imp (fun h => (wsLe_iff lc _ _).mp h)
  · exact (List.sorted_insertionSort (wsLe lc) _).imp (fun h => (wsLe_iff lc _ _).mp h)
  · intro c w
    exact filter_insertionSort_ties lc hsw _ c w
  · intro c w
    exact filter_insertionSort_ties lc hsw _ c w

/-! ## Witness for the ranking-order claim -/

/-- Witness for `rank_sorts_each_partition_stably` at the trivial comparator
and the specification's sample input. -/
theorem rank_sorts_each_partition_stably_witness :
    (∀ a b, lcEq b a = (lcEq a b).swap)
    ∧ ((rank lcEq wsSample).non_stopwords.Perm (wsSample.filter fun x => !x.isStopWord)
    ∧ (rank lcEq wsSample).stopwords.Perm (wsSample.filter fun x => x.isStopWord)
    ∧ (rank lcEq wsSample).non_stopwords.Pairwise
        (fun a b => b.count < a.count ∨ (b.count = a.count ∧ lcEq a.word b.word ≠ Ordering.gt))
    ∧ (rank lcEq wsSample).stopwords.Pairwise
        (fun a b => b.count < a.count ∨ (b.count = a.count ∧ lcEq a.word b.word ≠ Ordering.gt))
    ∧ (∀ c w, (rank lcEq wsSample).non_stopwords.filter (fun x => x.count == c && x.word == w)
        = (wsSample.filter fun x => !x.isStopWord).filter (fun x => x.count == c && x.word == w))
    ∧ (∀ c w, (rank lcEq wsSample).stopwords.filter (fun x => x.count == c && x.word == w)
        = (wsSample.filter fun x => x.isStopWord).filter (fun x => x.count == c && x.word == w))) :=
  ⟨fun _ _ => rfl,
   rank_sorts_each_partition_stably lcEq (fun _ _ => rfl)
     (fun _ _ _ _ _ h => Ordering.noConfusion h) wsSample⟩

/-! ## Total word count -/

/-- Folding the counts from any accumulator adds the sum of the counts. -/
theorem foldl_add_counts (ws : List WordStat) (n : Nat) :
    ws.foldl (fun sum w => sum + w.count) n = n + (ws.map (fun w => w.count)).sum := by
  induction ws generalizing n with
  | nil => simp
  | cons w rest ih =>
    rw [List.foldl_cons, ih, List.map_cons, List.sum_cons]
    omega

/-- C2: `total_words` is the sum of `count` over the entire input sequence,
stopwords included, computed on the unpartitioned input. -/
theorem rank_total_words (lc : String → String → Ordering) (ws : List WordStat) :
    (rank lc ws).total_words = (ws.map (fun w => w.count)).sum := by
  show ws.foldl (fun sum w => sum + w.count) 0 = _
  rw [foldl_add_counts]
  omega

/-! ## Partition invariants -/

/-- C3: the multiset union of the result's `non_stopwords` and `stopwords`
equals the input bag; each partition is exactly the entries with the matching
`isStopWord` flag, words and counts unchanged, and the partitions are
disjoint by flag. -/
theorem rank_partitions_input (lc : String → String → Ordering) (ws : List WordStat) :
    ((rank lc ws).non_stopwords ++ (rank lc ws).stopwords).Perm ws
    ∧ (rank lc ws).non_stopwords.Perm (ws.filter fun x => !x.isStopWord)
    ∧ (rank lc ws).stopwords.Perm (ws.filter fun x => x.isStopWord)
    ∧ (∀ x ∈ (rank lc ws).non_stopwords, x.isStopWord = false)
    ∧ (∀ x ∈ (rank lc ws).stopwords, x.isStopWord = true) := by
  have h1 : (rank lc ws).non_stopwords.Perm (ws.filter fun x => !x.isStopWord) :=
    List.perm_insertionSort _ _
  have h2 : (rank lc ws).stopwords.Perm (ws.filter fun x => x.isStopWord) :=
    List.perm_insertionSort _ _
  refine ⟨?_, h1, h2, ?_, ?_⟩
  · have h4 : ((ws.filter fun x => !x.isStopWord) ++ (ws.filter fun x => x.isStopWord)).Perm ws := by
      have h5 := List.filter_append_perm (fun x => !x.isStopWord) ws
      simpa using h5
    exact (h1.append h2).trans h4
  · intro x hx
    have hx' := List.of_mem_filter (h1.mem_iff.mp hx)
    simpa using hx'
  · intro x hx
    exact List.of_mem_filter (h2.mem_iff.mp hx)

/-! ## Top-five selection -/

/-- C4: `top_5_words` is the first min(5, length) elements of the sorted
`non_stopwords`: a prefix of it, of length at most five, and equal to the
whole sorted sequence (no padding) when fewer than five non-stopwords
exist. -/
theorem rank_top5_take (lc : String → String → Ordering) (ws : List WordStat) :
    (rank lc ws).top_5_words = (rank lc ws).non_stopwords.take 5
    ∧ (rank lc ws).top_5_words.length = min 5 (rank lc ws).non_stopwords.length
    ∧ (∃ rest, (rank lc ws).top_5_words ++ rest = (rank lc ws).non_stopwords)
    ∧ (rank lc ws).top_5_words.length ≤ 5
    ∧ ((rank lc ws).non_stopwords.length < 5 →
        (rank lc ws).top_5_words = (rank lc ws).non_stopwords) := by
  refine ⟨rfl, List.length_take 5 _,
    ⟨(rank lc ws).non_stopwords.drop 5, List.take_append_drop 5 _⟩, ?_, ?_⟩
  · exact List.length_take_le 5 _
  · intro h
    exact List.take_of_length_le (Nat.le_of_lt h)

/-- Witness for `rank_top5_take` at the specification's two-element
example: exactly two entries come back, no padding. -/
theorem rank_top5_take_witness :
    ((rank lcEq wsPair).non_stopwords.length < 5)
    ∧ (rank lcEq wsPair).top_5_words = (rank lcEq wsPair).non_stopwords :=
  ⟨by decide, (rank_top5_take lcEq wsPair).2.2.2.2 (by decide)⟩

/-! ## Totality and the empty input -/

/-- C5: the ranking computation is a total function — every input sequence
produces a result, with no failure mode — and the empty input yields zero
total words and three empty sequences. -/
theorem rank_total_function (lc : String → String → Ordering) :
    (∀ ws : List WordStat, ∃ r : RankResult, rank lc ws = r)
    ∧ rank lc [] = { total_words := 0, top_5_words := [], non_stopwords := [], stopwords := [] } :=
  ⟨fun ws => ⟨rank lc ws, rfl⟩, rfl⟩

/-! ## Store replacement semantics -/

/-- C6: `saveLastAnalysis` deletes every existing row unconditionally and
then inserts the new text, so exactly one row — the new text under a fresh
id — is live afterwards; saving "Hello World" then "Second text" makes a
search for "Hello" return false and a search for "Second" return true. -/
theorem saveLastAnalysis_single_row :
    (∀ (s : Store) (t : String), (saveLastAnalysis s t).rows = [⟨s.nextId, t⟩])
    ∧ (∀ s : Store, (deleteAll s).rows = [])
    ∧ (∀ s : Store,
        searchTerm (saveLastAnalysis (saveLastAnalysis s "Hello World") "Second text") "Hello"
          = false
        ∧ searchTerm (saveLastAnalysis (saveLastAnalysis s "Hello World") "Second text") "Second"
          = true) := by
  refine ⟨fun s t => rfl, fun s => rfl, fun s => ⟨?_, ?_⟩⟩
  · show jsIncludes "Second text" "Hello" = false
    decide
  · show jsIncludes "Second text" "Second" = true
    decide

/-! ## Substring search semantics -/

/-- Scanning every suffix for the needle as a prefix decides exact substring
containment. -/
theorem containsSub_correct (needle hay : List Char) :
    containsSub needle hay = true ↔ needle <:+: hay := by
  induction hay with
  | nil =>
    simp [containsSub, List.isEmpty_iff]
  | cons c rest ih =>
    simp [containsSub, List.isPrefixOf_iff_prefix, ih, List.infix_cons_iff]

/-- C7: `searchTerm` answers true exactly when the term occurs as a
case-sensitive exact substring of the stored text — no normalization,
trimming, or tokenization; against the stored text "Hello World" the term
"World" is found and "world" is not. -/
theorem searchTerm_iff_substring :
    (∀ (s : Store) (text term : String), lastAnalysisText s = some text →
      (searchTerm s term = true ↔ term.data <:+: text.data))
    ∧ (∀ s : Store, searchTerm (saveLastAnalysis s "Hello World") "World" = true)
    ∧ (∀ s : Store, searchTerm (saveLastAnalysis s "Hello World") "world" = false) := by
  refine ⟨?_, ?_, ?_⟩
  · intro s text term hs
    show searchTermResult (.ok (lastAnalysisText s)) term = true ↔ _
    rw [hs]
    exact containsSub_correct term.data text.data
  · intro s
    show jsIncludes "Hello World" "World" = true
    decide
  · intro s
    show jsIncludes "Hello World" "world" = false
    decide

/-- Witness for `searchTerm_iff_substring` at a store holding
"Hello World" and the term "World". -/
theorem searchTerm_iff_substring_witness :
    (lastAnalysisText storeHello = some "Hello World")
    ∧ (searchTerm storeHello "World" = true ↔ ("World").data <:+: ("Hello World").data) :=
  ⟨rfl, searchTerm_iff_substring.1 storeHello "Hello World" "World" rfl⟩

/-! ## Search error handling -/

/-- C8: `searchTerm` never raises: a storage read error yields false, an
absent record yields false, the two outcomes are indistinguishable in the
returned value, and any search against a store with no rows is false. -/
theorem searchTerm_false_on_empty_or_error :
    (∀ (term e : String), searchTermResult (.error e) term = false)
    ∧ (∀ term : String, searchTermResult (.ok none) term = false)
    ∧ (∀ (term e : String), searchTermResult (.error e) term = searchTermResult (.ok none) term)
    ∧ (∀ (term : String) (s : Store), s.rows = [] → searchTerm s term = false) := by
  refine ⟨fun _ _ => rfl, fun _ => rfl, fun _ _ => rfl, ?_⟩
  intro term s h
  show searchTermResult (.ok (lastAnalysisText s)) term = false
  unfold lastAnalysisText
  rw [h]
  rfl

/-- Witness for `searchTerm_false_on_empty_or_error` against the
never-written store. -/
theorem searchTerm_false_on_empty_or_error_witness :
    (emptyStore.rows = []) ∧ searchTerm emptyStore "anything" = false :=
  ⟨rfl, searchTerm_false_on_empty_or_error.2.2.2 "anything" emptyStore rfl⟩

/-! ## Search route response shape -/

/-- Counterexample to the claimed response shape: for the valid term "Hello"
the search route's body lists the keys `term` and
`termFoundedInLastAnalysis`, not `term` and `found`. -/
theorem searchTermRoute_keys_not_found :
    ((searchTermRoute emptyStore (some "Hello")).2.map Prod.fst
      = ["term", "termFoundedInLastAnalysis"])
    ∧ ((searchTermRoute emptyStore (some "Hello")).2.map Prod.fst ≠ ["term", "found"]) := by
  constructor
  · decide
  · decide

/-- C9 amended: for every valid (non-empty) term, the search route responds
with status 200 and body exactly
`{ term, termFoundedInLastAnalysis: boolean }`, the boolean being the result
of the substring search. -/
theorem searchTermRoute_shape (s : Store) (t : String) (ht : t ≠ "") :
    searchTermRoute s (some t)
      = (200, [("term", .str t), ("termFoundedInLastAnalysis", .bool (searchTerm s t))]) := by
  simp [searchTermRoute, ht]

/-- Witness for `searchTermRoute_shape` at the never-written store and the
term "Hello". -/
theorem searchTermRoute_shape_witness :
    ("Hello" ≠ "")
    ∧ searchTermRoute emptyStore (some "Hello")
      = (200, [("term", .str "Hello"),
          ("termFoundedInLastAnalysis", .bool (searchTerm emptyStore "Hello"))]) :=
  ⟨by decide, searchTermRoute_shape emptyStore "Hello" (by decide)⟩

/-! ## Analyze route persists the text even when the model call fails -/

/-- C10: when the model call fails, `inputIAData` catches the error and
produces the error object, yet the analyze-text route still calls
`saveLastAnalysis(text)`, so the store afterwards holds exactly the
submitted raw text, the caller receives only the error object, and every
subsequent search runs against the text whose analysis failed. -/
theorem analyzeTextRoute_saves_despite_ai_failure
    (lc : String → String → Ordering) (s : Store) (text e : String)
    (h : ¬(text = "" ∨ jsTrim text = "")) :
    analyzeTextRoute lc s text (.error e)
      = (.ok (.failure "Error retrieving analysis from AI"), saveLastAnalysis s text)
    ∧ (analyzeTextRoute lc s text (.error e)).2.rows = [⟨s.nextId, text⟩]
    ∧ (∀ term, searchTerm (analyzeTextRoute lc s text (.error e)).2 term
        = jsIncludes text term) := by
  have h1 : analyzeTextRoute lc s text (.error e)
      = (.ok (.failure "Error retrieving analysis from AI"), saveLastAnalysis s text) := by
    unfold analyzeTextRoute
    rw [if_neg h]
    rfl
  refine ⟨h1, ?_, ?_⟩
  · rw [h1]
    rfl
  · intro term
    rw [h1]
    rfl

/-- Witness for `analyzeTextRoute_saves_despite_ai_failure`: submitting
"Hello World" while the model call fails with "boom". -/
theorem analyzeTextRoute_saves_despite_ai_failure_witness :
    (¬("Hello World" = "" ∨ jsTrim "Hello World" = ""))
    ∧ (analyzeTextRoute lcEq emptyStore "Hello World" (.error "boom")
        = (.ok (.failure "Error retrieving analysis from AI"),
            saveLastAnalysis emptyStore "Hello World")
    ∧ (analyzeTextRoute lcEq emptyStore "Hello World" (.error "boom")).2.rows
        = [⟨emptyStore.nextId, "Hello World"⟩]
    ∧ (∀ term, searchTerm (analyzeTextRoute lcEq emptyStore "Hello World" (.error "boom")).2 term
        = jsIncludes "Hello World" term)) :=
  ⟨by decide,
   analyzeTextRoute_saves_despite_ai_failure lcEq emptyStore "Hello World" "boom" (by decide)⟩

/-! ## Concrete evaluations -/

example : (rank lcEq wsSample).total_words = 11 := by decide

example : (rank (fun a b => compare a b) wsSample).non_stopwords
    = [⟨"cat", 3, false⟩, ⟨"dog", 3, false⟩] := by decide

example : (rank (fun a b => compare a b) wsSample).top_5_words
    = [⟨"cat", 3, false⟩, ⟨"dog", 3, false⟩] := by decide

example : (rank (fun a b => compare a b) wsSample).stopwords = [⟨"the", 5, true⟩] := by decide

example : jsIncludes "Hello World" "World" = true := by decide

example : jsIncludes "Hello World" "world" = false := by decide
